import Mathlib

/-!
Verification development for the bareduckdb host-side data integration layer.

The definitions below are a shallow embedding of the Python sources:
  * `src/bareduckdb/data_sources/arrow_holder.py`   (namespace `arrow_holder`)
  * `src/bareduckdb/data_sources/polars_holder.py`  (namespace `polars_holder`)
  * `src/bareduckdb/data_sources/__init__.py`       (namespace `data_sources`)
  * `src/bareduckdb/dataset/backend.py`             (namespace `backend`)
  * `bareduckdb/dataset/backend.py` (repo root, legacy path; namespace `backend_legacy`)
  * `bareduckdb/core/registration.py`               (namespace `registration`)
  * `src/bareduckdb/core/connection_api.py`         (namespace `connection_api`)

Machine floats are modelled as either NaN or a finite value drawn from `Int`
(the claims under study depend only on NaN-ness and on the order of the finite
values, never on rounding).  Python dicts that are iterated in insertion order
are modelled as association lists.
-/

/-- A floating-point cell value: NaN, or a finite value (modelled by an
integer; only the ordering of finite values matters for the claims). -/
inductive FVal
  | nan
  | fin (x : Int)
deriving DecidableEq, Repr

/-- A typed scalar filter value as received from the engine (the `value`
field of a `ConstantComparison` / the elements of an `In` filter). `nullV`
models Python `None`. `dateV` carries days since epoch, `timestampV`
microseconds since epoch (the encodings used throughout `backend.py`). -/
inductive Value
  | intV (n : Int)
  | floatV (f : FVal)
  | strV (s : String)
  | boolV (b : Bool)
  | dateV (days : Int)
  | timestampV (us : Int)
  | nullV
deriving DecidableEq, Repr

/-- Logical column types distinguished by the translators
(`pa.types.is_integer`, `is_floating`, ... in `arrow_holder.py`). -/
inductive ColType
  | boolT
  | intT
  | floatT
  | strT
  | dateT
  | timestampT
  | decimalT
  | binaryT
  | structT
  | listT
  | mapT
  | stringViewT
  | binaryViewT
deriving DecidableEq, Repr

/-- The engine's pushed-down filter tree (DuckDB `TableFilter`), as decoded
into the `filter_info` dicts consumed by both holders' translators.  The
integer `type` tags of `_FilterType` are replaced by constructors; the
`comparison` codes of `_ComparisonType` stay numeric (25..30), exactly the
values dispatched on in `_apply_comparison`. -/
inductive TableFilter
  | constantComparison (comparison : Nat) (value : Value)
  | isNullF
  | isNotNullF
  | conjunctionOr (children : List TableFilter)
  | conjunctionAnd (children : List TableFilter)
  | structExtract (child_idx : String) (child_filter : Option TableFilter)
  | optionalFilter
  | inFilter (values : List Value)
  | dynamicFilter

-- Comparison codes of the `_ComparisonType` classes (identical in
-- `arrow_holder.py` and `polars_holder.py`; they match DuckDB's
-- `ExpressionType` enum).
namespace comparison_type

def EQUAL : Nat := 25

def NOT_EQUAL : Nat := 26

def LESS_THAN : Nat := 27

def GREATER_THAN : Nat := 28

def LESS_THAN_OR_EQUAL : Nat := 29

def GREATER_THAN_OR_EQUAL : Nat := 30

end comparison_type

namespace arrow_holder

/-- PyArrow dataset expressions (`ds.Expression`) as built by
`_translate_single_filter` / `_apply_comparison` in `arrow_holder.py`.
`notD` models the `~` operator, `cmpD` a `field OP value` comparison. -/
inductive DsExpr
  | scalar (b : Bool)
  | isNullD (column : String)
  | isNanD (column : String)
  | notD (e : DsExpr)
  | andD (a b : DsExpr)
  | orD (a b : DsExpr)
  | cmpD (column : String) (comparison : Nat) (value : Value)
  | isInD (column : String) (values : List Value)
deriving DecidableEq, Repr

/-- Model of `_is_supported_filter_type` in `arrow_holder.py`. -/
def _is_supported_filter_type (column_type : ColType) : Bool :=
  match column_type with
  | .stringViewT => false
  | .binaryViewT => false
  | .decimalT => false
  | .binaryT => false
  | .structT => false
  | .listT => false
  | .mapT => false
  | .boolT => true
  | .intT => true
  | .floatT => true
  | .strT => true
  | .dateT => true
  | .timestampT => true

/-- Model of `_convert_value_for_type` in `arrow_holder.py`: `None` passes
through, an integer aimed at a date/timestamp column is turned into the
date/timestamp it denotes (days resp. microseconds since epoch; the
timezone alignment performed on Python `datetime` objects does not change
the instant and is not modelled), everything else passes through. -/
def _convert_value_for_type (value : Value) (column_type : ColType) : Value :=
  match value with
  | .nullV => .nullV
  | v =>
    match column_type with
    | .dateT => match v with | .intV n => .dateV n | _ => v
    | .timestampT => match v with | .intV n => .timestampV n | _ => v
    | _ => v

/-- Model of `_is_nan` in `arrow_holder.py` (`isinstance(value, float) and
math.isnan(value)`). -/
def _is_nan (value : Value) : Bool :=
  match value with
  | .floatV .nan => true
  | _ => false

/-- The generic comparison dispatch at the bottom of `_apply_comparison`
(the chain `field == v | field != v | ... | ds.scalar(True)`). -/
def generic_comparison (column : String) (comparison : Nat) (value : Value) : DsExpr :=
  if comparison = comparison_type.EQUAL then .cmpD column comparison value
  else if comparison = comparison_type.NOT_EQUAL then .cmpD column comparison value
  else if comparison = comparison_type.LESS_THAN then .cmpD column comparison value
  else if comparison = comparison_type.LESS_THAN_OR_EQUAL then .cmpD column comparison value
  else if comparison = comparison_type.GREATER_THAN then .cmpD column comparison value
  else if comparison = comparison_type.GREATER_THAN_OR_EQUAL then .cmpD column comparison value
  else .scalar true

/-- Model of `_apply_comparison` in `arrow_holder.py`.  `none` models a
raised `_UnsupportedFilterError` (null filter value / failed conversion).
On a floating column compared against NaN the dedicated NaN branch fires;
otherwise the generic comparison is emitted. -/
def _apply_comparison (column_name : String) (comparison : Nat) (value : Value)
    (column_type : ColType) : Option DsExpr :=
  if value = Value.nullV then none
  else
    let converted_value := _convert_value_for_type value column_type
    if converted_value = Value.nullV then none
    else if column_type = ColType.floatT ∧ _is_nan converted_value then
      if comparison = comparison_type.EQUAL then some (.isNanD column_name)
      else if comparison = comparison_type.NOT_EQUAL then some (.notD (.isNanD column_name))
      else if comparison = comparison_type.GREATER_THAN then some (.scalar false)
      else if comparison = comparison_type.LESS_THAN then some (.notD (.isNanD column_name))
      else if comparison = comparison_type.GREATER_THAN_OR_EQUAL then some (.isNanD column_name)
      else if comparison = comparison_type.LESS_THAN_OR_EQUAL then some (.scalar true)
      else some (generic_comparison column_name comparison converted_value)
    else some (generic_comparison column_name comparison converted_value)

mutual

/-- Model of `_translate_single_filter` in `arrow_holder.py`.  `none` models
a raised `_UnsupportedFilterError`.  Note the source has no `STRUCT_EXTRACT`
branch: such filters fall into the final `else` and become `ds.scalar(True)`. -/
def _translate_single_filter : TableFilter → String → ColType → Option DsExpr
  | .constantComparison comparison value, column_name, column_type =>
    _apply_comparison column_name comparison value column_type
  | .isNullF, column_name, _ => some (.isNullD column_name)
  | .isNotNullF, column_name, _ => some (.notD (.isNullD column_name))
  | .conjunctionAnd [], _, _ => some (.scalar true)
  | .conjunctionAnd (c :: cs), column_name, column_type =>
    match _translate_single_filter c column_name column_type with
    | none => none
    | some e => fold_and e cs column_name column_type
  | .conjunctionOr [], _, _ => some (.scalar false)
  | .conjunctionOr (c :: cs), column_name, column_type =>
    match _translate_single_filter c column_name column_type with
    | none => none
    | some e => fold_or e cs column_name column_type
  | .inFilter [], _, _ => some (.scalar false)
  | .inFilter (v :: vs), column_name, column_type =>
    let converted_values := (v :: vs).map (fun w => _convert_value_for_type w column_type)
    if converted_values.any (fun w => w = Value.nullV) then none
    else some (.isInD column_name converted_values)
  | .dynamicFilter, _, _ => some (.scalar true)
  | .optionalFilter, _, _ => some (.scalar true)
  | .structExtract _ _, _, _ => some (.scalar true)

/-- The `for child in children[1:]: result = result & ...` loop of the
`CONJUNCTION_AND` branch. -/
def fold_and : DsExpr → List TableFilter → String → ColType → Option DsExpr
  | acc, [], _, _ => some acc
  | acc, c :: cs, column_name, column_type =>
    match _translate_single_filter c column_name column_type with
    | none => none
    | some e => fold_and (.andD acc e) cs column_name column_type

/-- The `for child in children[1:]: result = result | ...` loop of the
`CONJUNCTION_OR` branch. -/
def fold_or : DsExpr → List TableFilter → String → ColType → Option DsExpr
  | acc, [], _, _ => some acc
  | acc, c :: cs, column_name, column_type =>
    match _translate_single_filter c column_name column_type with
    | none => none
    | some e => fold_or (.orD acc e) cs column_name column_type

end

/-- The `for col_idx, filter_info in filters.items()` loop of
`_translate_filters_to_dataset`, with the running conjunction `result` made
explicit.  An index past the end of `column_names` is skipped, as is a
column whose type is unsupported, a field name absent from the schema
(unreachable at the call site, where `column_names = schema.names`), and a
filter whose translation fails. -/
def translate_filters_loop (column_names : List String) (schema : List (String × ColType)) :
    Option DsExpr → List (Nat × TableFilter) → Option DsExpr
  | result, [] => result
  | result, (col_idx, filter_info) :: rest =>
    if col_idx ≥ column_names.length then
      translate_filters_loop column_names schema result rest
    else
      let column_name := column_names.getD col_idx ""
      match schema.lookup column_name with
      | none => translate_filters_loop column_names schema result rest
      | some column_type =>
        if ¬ _is_supported_filter_type column_type then
          translate_filters_loop column_names schema result rest
        else
          match _translate_single_filter filter_info column_name column_type with
          | none => translate_filters_loop column_names schema result rest
          | some expr =>
            match result with
            | none => translate_filters_loop column_names schema (some expr) rest
            | some r => translate_filters_loop column_names schema (some (.andD r expr)) rest

/-- Model of `_translate_filters_to_dataset` in `arrow_holder.py`.
`produce_filtered` calls it with `column_names = schema.names`. -/
def _translate_filters_to_dataset (filters : List (Nat × TableFilter))
    (column_names : List String) (schema : List (String × ColType)) : Option DsExpr :=
  translate_filters_loop column_names schema none filters

/-- Evaluation of a translated predicate over a single non-null
floating-point cell (the setting of the NaN-comparison claim).  `is_nan`
holds exactly on NaN; `is_null` is false on a non-null cell.  Comparison
and membership atoms never occur in NaN translations and their engine
semantics is out of scope here, so they evaluate to `false`. -/
def eval_ds_float : DsExpr → FVal → Bool
  | .scalar b, _ => b
  | .isNullD _, _ => false
  | .isNanD _, v => match v with | .nan => true | .fin _ => false
  | .notD e, v => ! eval_ds_float e v
  | .andD a b, v => eval_ds_float a v && eval_ds_float b v
  | .orD a b, v => eval_ds_float a v || eval_ds_float b v
  | .cmpD _ _ _, _ => false
  | .isInD _ _, _ => false

/-- Evaluation lifted to the translator's `Option` result (a dropped filter
selects nothing here; the six NaN cases all translate successfully). -/
def eval_opt_ds (o : Option DsExpr) (v : FVal) : Bool :=
  match o with
  | some e => eval_ds_float e v
  | none => false

end arrow_holder

namespace polars_holder

/-- A Polars column expression base: `pl.col(name)` or
`pl.col(name).struct.field(child_idx)` (the expression passed to
`_translate_filter_with_expr` by the `STRUCT_EXTRACT` branch). -/
inductive ColExpr
  | col (name : String)
  | structField (name : String) (child_idx : String)
deriving DecidableEq, Repr

/-- Polars boolean expressions (`pl.Expr`) as built by the translator in
`polars_holder.py`.  `litE` models `pl.lit(b)`. -/
inductive PlExpr
  | litE (b : Bool)
  | isNullE (c : ColExpr)
  | isNotNullE (c : ColExpr)
  | isNanE (c : ColExpr)
  | notE (e : PlExpr)
  | andE (a b : PlExpr)
  | orE (a b : PlExpr)
  | cmpE (c : ColExpr) (comparison : Nat) (value : Value)
  | isInE (c : ColExpr) (values : List Value)
deriving DecidableEq, Repr

/-- Model of `isinstance(value, float) and math.isnan(value)` as used in
`_translate_single_filter` and `_translate_filter_with_expr`. -/
def value_is_nan (value : Value) : Bool :=
  match value with
  | .floatV .nan => true
  | _ => false

/-- Model of `_translate_nan_comparison` in `polars_holder.py`. -/
def _translate_nan_comparison (comparison : Nat) (col : ColExpr) : PlExpr :=
  if comparison = comparison_type.EQUAL then .isNanE col
  else if comparison = comparison_type.NOT_EQUAL then .notE (.isNanE col)
  else if comparison = comparison_type.GREATER_THAN_OR_EQUAL then .isNanE col
  else if comparison = comparison_type.LESS_THAN then .notE (.isNanE col)
  else if comparison = comparison_type.GREATER_THAN then .litE false
  else if comparison = comparison_type.LESS_THAN_OR_EQUAL then .litE true
  else .litE true

/-- Model of `_apply_comparison` in `polars_holder.py` (`col OP value`, with
unknown operators becoming `pl.lit(True)`). -/
def _apply_comparison (col : ColExpr) (comparison : Nat) (value : Value) : PlExpr :=
  if comparison = comparison_type.EQUAL then .cmpE col comparison value
  else if comparison = comparison_type.NOT_EQUAL then .cmpE col comparison value
  else if comparison = comparison_type.LESS_THAN then .cmpE col comparison value
  else if comparison = comparison_type.LESS_THAN_OR_EQUAL then .cmpE col comparison value
  else if comparison = comparison_type.GREATER_THAN then .cmpE col comparison value
  else if comparison = comparison_type.GREATER_THAN_OR_EQUAL then .cmpE col comparison value
  else .litE true

/-- Model of `_translate_filter_with_expr` in `polars_holder.py` (used for
struct fields; handles only comparisons and null checks, everything else
becomes `pl.lit(True)`). -/
def _translate_filter_with_expr (filter_info : TableFilter) (expr : ColExpr) : PlExpr :=
  match filter_info with
  | .constantComparison comparison value =>
    if value_is_nan value then
      if comparison = comparison_type.EQUAL then .isNanE expr
      else if comparison = comparison_type.NOT_EQUAL then .notE (.isNanE expr)
      else .litE true
    else _apply_comparison expr comparison value
  | .isNullF => .isNullE expr
  | .isNotNullF => .isNotNullE expr
  | _ => .litE true

mutual

/-- Model of `_translate_single_filter` in `polars_holder.py`. -/
def _translate_single_filter : TableFilter → String → PlExpr
  | .constantComparison comparison value, column_name =>
    if value_is_nan value then _translate_nan_comparison comparison (.col column_name)
    else _apply_comparison (.col column_name) comparison value
  | .isNullF, column_name => .isNullE (.col column_name)
  | .isNotNullF, column_name => .isNotNullE (.col column_name)
  | .conjunctionAnd [], _ => .litE true
  | .conjunctionAnd (c :: cs), column_name =>
    fold_and (_translate_single_filter c column_name) cs column_name
  | .conjunctionOr [], _ => .litE false
  | .conjunctionOr (c :: cs), column_name =>
    fold_or (_translate_single_filter c column_name) cs column_name
  | .structExtract child_idx child_filter, column_name =>
    match child_filter with
    | some cf => _translate_filter_with_expr cf (.structField column_name child_idx)
    | none => .litE true
  | .inFilter [], _ => .litE false
  | .inFilter (v :: vs), column_name => .isInE (.col column_name) (v :: vs)
  | .dynamicFilter, _ => .litE true
  | .optionalFilter, _ => .litE true

/-- The `for child in children[1:]: result = result & ...` loop of the
`CONJUNCTION_AND` branch. -/
def fold_and : PlExpr → List TableFilter → String → PlExpr
  | acc, [], _ => acc
  | acc, c :: cs, column_name =>
    fold_and (.andE acc (_translate_single_filter c column_name)) cs column_name

/-- The `for child in children[1:]: result = result | ...` loop of the
`CONJUNCTION_OR` branch. -/
def fold_or : PlExpr → List TableFilter → String → PlExpr
  | acc, [], _ => acc
  | acc, c :: cs, column_name =>
    fold_or (.orE acc (_translate_single_filter c column_name)) cs column_name

end

/-- The `for col_idx, filter_info in filters.items()` loop of
`_translate_filters_to_polars`, with the running conjunction `result` made
explicit.  An index past the end of `column_names` is skipped; translation
of a single filter is total here (the `except` clause of the source catches
key/type errors that cannot arise in the typed embedding). -/
def translate_filters_loop (column_names : List String) :
    Option PlExpr → List (Nat × TableFilter) → Option PlExpr
  | result, [] => result
  | result, (col_idx, filter_info) :: rest =>
    if col_idx ≥ column_names.length then
      translate_filters_loop column_names result rest
    else
      let column_name := column_names.getD col_idx ""
      let expr := _translate_single_filter filter_info column_name
      match result with
      | none => translate_filters_loop column_names (some expr) rest
      | some r => translate_filters_loop column_names (some (.andE r expr)) rest

/-- Model of `_translate_filters_to_polars` in `polars_holder.py`. -/
def _translate_filters_to_polars (filters : List (Nat × TableFilter))
    (column_names : List String) : Option PlExpr :=
  translate_filters_loop column_names none filters

/-- Evaluation of a translated Polars predicate over a single non-null
floating-point cell (the setting of the NaN-comparison claim).  `is_nan`
holds exactly on NaN; `is_null` is false and `is_not_null` true on a
non-null cell.  Comparison and membership atoms never occur in NaN
translations and their library semantics is out of scope, so they
evaluate to `false`. -/
def eval_pl_float : PlExpr → FVal → Bool
  | .litE b, _ => b
  | .isNullE _, _ => false
  | .isNotNullE _, _ => true
  | .isNanE _, v => match v with | .nan => true | .fin _ => false
  | .notE e, v => ! eval_pl_float e v
  | .andE a b, v => eval_pl_float a v && eval_pl_float b v
  | .orE a b, v => eval_pl_float a v || eval_pl_float b v
  | .cmpE _ _ _, _ => false
  | .isInE _ _, _ => false

end polars_holder

namespace arrow_holder

/-- Schema (list of column names) of the stream returned by
`ArrowHolder.produce_filtered` in `arrow_holder.py`.  With both arguments
`None` the holder returns `self._schema.empty_table()` (full schema, zero
rows); otherwise it returns the stream of
`self._dataset.scanner(columns=projected_columns, filter=...)`, whose
schema is the projected columns (all columns when `columns=None`); the
filter never changes the schema.  Projected names are assumed to be drawn
from the holder's schema (the engine only asks for existing columns). -/
def produce_filtered_schema (schema_names : List String)
    (projected_columns : Option (List String))
    (filters : Option (List (Nat × TableFilter))) : List String :=
  if projected_columns.isNone && filters.isNone then schema_names
  else
    match projected_columns with
    | none => schema_names
    | some cols => cols

end arrow_holder

namespace polars_holder

/-- Schema (list of column names) of the stream returned by
`PolarsHolder.produce_filtered` in `polars_holder.py`.  With both arguments
`None` the holder returns `self._df.head(0)` (full schema, zero rows).
Otherwise `df.filter(...)` leaves the columns unchanged and
`if projected_columns: df = df.select(projected_columns)` projects — note
the truthiness test, under which an *empty* projection list is skipped and
the full schema is returned. -/
def produce_filtered_schema (column_names : List String)
    (projected_columns : Option (List String))
    (filters : Option (List (Nat × TableFilter))) : List String :=
  if projected_columns.isNone && filters.isNone then column_names
  else
    match projected_columns with
    | some (c :: cs) => c :: cs
    | _ => column_names

/-- Schema of the stream returned by `PolarsLazyHolder.produce_filtered`.
The `self._cached_df` fast path and the `lf.collect()` path both end in the
same truthiness-guarded `select`, so the schema only depends on the
projection/filter arguments, mirroring the eager holder. -/
def lazy_produce_filtered_schema (column_names : List String)
    (projected_columns : Option (List String))
    (filters : Option (List (Nat × TableFilter)))
    (cached : Bool) : List String :=
  if projected_columns.isNone && filters.isNone then column_names
  else
    let filters_pushed :=
      match filters with
      | none => false
      | some fs => (_translate_filters_to_polars fs column_names).isSome
    if !filters_pushed && cached then
      match projected_columns with
      | some (c :: cs) => c :: cs
      | _ => column_names
    else
      match projected_columns with
      | some (c :: cs) => c :: cs
      | _ => column_names

end polars_holder

/-- The projection of a holder's schema by a projection list, as used by the
spec's schema-stability invariant ("the schema of the stream returned by
`produce_filtered(P, F)` equals the projection of H's schema by P"):
`None` means "all columns", a list means exactly those columns (in
particular the empty list denotes the empty schema). -/
def spec_projected_schema (schema_names : List String)
    (projected_columns : Option (List String)) : List String :=
  match projected_columns with
  | none => schema_names
  | some cols => cols

/-- A typed column of a host-resident frame, as consumed by the statistics
extractor in `backend.py`.  Cells are `Option`s (`none` = null).  Dates are
carried as days since epoch and timestamps as microseconds since epoch —
the exact integer encodings `_compute_statistics_arrow` /
`_compute_statistics_polars` produce via `(v - date(1970,1,1)).days` and
`int(v.timestamp() * 1_000_000)` (both conversions are strictly monotone,
so min/max commute with them).  View-encoded, decimal, binary and nested
columns are outside the statistics claims and are not modelled. -/
inductive Column
  | intCol (cells : List (Option Int))
  | floatCol (cells : List (Option FVal))
  | strCol (cells : List (Option String))
  | dateCol (cells : List (Option Int))
  | tsCol (cells : List (Option Int))
deriving DecidableEq, Repr

/-- Number of rows of a column. -/
def Column.num_rows : Column → Nat
  | .intCol cells => cells.length
  | .floatCol cells => cells.length
  | .strCol cells => cells.length
  | .dateCol cells => cells.length
  | .tsCol cells => cells.length

/-- Number of null cells of a column (`col.null_count`). -/
def count_nulls {α : Type} (cells : List (Option α)) : Nat :=
  (cells.filter (fun c => c.isNone)).length

/-- Null count of a column. -/
def Column.null_count : Column → Nat
  | .intCol cells => count_nulls cells
  | .floatCol cells => count_nulls cells
  | .strCol cells => count_nulls cells
  | .dateCol cells => count_nulls cells
  | .tsCol cells => count_nulls cells

/-- The non-null values of a column's cells. -/
def some_vals {α : Type} (cells : List (Option α)) : List α :=
  cells.filterMap id

/-- The finite (non-null, non-NaN) values of a float column. -/
def fin_vals (cells : List (Option FVal)) : List Int :=
  cells.filterMap (fun c =>
    match c with
    | some (.fin x) => some x
    | _ => none)

/-- Model of `pc.any(pc.is_nan(col))` / `col.is_nan().any()`: true iff some
non-null cell is NaN (nulls propagate through `is_nan` and are ignored by
`any` in both libraries). -/
def any_nan (cells : List (Option FVal)) : Bool :=
  cells.any (fun c => c = some FVal.nan)

/-- Minimum of a list (model of the null-skipping `pc.min_max` / `col.min()`
aggregates; `none` on the empty list). -/
def list_min {α : Type} [LinearOrder α] : List α → Option α
  | [] => none
  | x :: xs =>
    some (match list_min xs with
          | none => x
          | some m => min x m)

/-- Maximum of a list (`none` on the empty list). -/
def list_max {α : Type} [LinearOrder α] : List α → Option α
  | [] => none
  | x :: xs =>
    some (match list_max xs with
          | none => x
          | some m => max x m)

/-- The statistics tuple `(col_idx, type_tag, null_count, num_rows, min_int,
max_int, min_double, max_double, max_str_len, min_str, max_str)` built by
`_make_stats_tuple` in `backend.py`, with its keyword defaults.  Finite
doubles are carried on the same integer scale as `FVal.fin`. -/
structure StatTuple where
  idx : Nat
  type_tag : String
  null_count : Nat
  num_rows : Nat
  min_int : Int := 0
  max_int : Int := 0
  min_double : Int := 0
  max_double : Int := 0
  max_str_len : Nat := 0
  min_str : String := ""
  max_str : String := ""
deriving DecidableEq, Repr

/-- A host table / dataframe for statistics purposes: named, typed columns
in schema order (all of equal length in a real frame). -/
abbrev StatTable : Type := List (String × Column)

/-- The statistics specification after `_resolve_statistics_columns` has
normalised it: the `"numeric"` keyword and regex patterns resolve to an
explicit list of matching column names (or no statistics when nothing
matches), so the residual shapes are: no statistics, all columns
(`statistics is True`), or an explicit name list. -/
inductive StatSpec
  | statsNone
  | statsTrue
  | statsCols (names : List String)

namespace backend

/-- The name-to-position resolution `idx = table.schema.get_field_index(name)`
(resp. `idx = df.columns.index(name)`) paired with the column it designates,
`none` when the name is absent (the `ValueError` branch).  Returns the first
occurrence, as both library calls do. -/
def find_col_idx (tbl : StatTable) (name : String) : Option (Nat × (String × Column)) :=
  match tbl with
  | [] => none
  | entry :: rest =>
    if entry.1 = name then some (0, entry)
    else (find_col_idx rest name).map (fun p => (p.1 + 1, p.2))

/-- Number of rows of a table (`table.num_rows` / `df.height`; all columns
of a real frame have this common length). -/
def table_num_rows (tbl : StatTable) : Nat :=
  match tbl with
  | [] => 0
  | entry :: _ => entry.2.num_rows

/-- Model of `_resolve_statistics_columns` on post-normalisation shapes
(see `StatSpec`): `None → None`, `True → True`, explicit list → itself. -/
def resolve_statistics_columns (spec : StatSpec) : StatSpec :=
  spec

/-- The per-column body of the `for name in col_names` loop of
`_compute_statistics_arrow`: the all-null check, then the floating NaN
skip, then `pc.min_max` and the per-type tuple construction.  `none` means
the column is omitted from the result. -/
def stat_column_arrow (idx : Nat) (col : Column) : Option StatTuple :=
  let null_count := col.null_count
  let num_rows := col.num_rows
  if null_count = num_rows then
    some { idx := idx, type_tag := "null", null_count := null_count, num_rows := num_rows }
  else
    match col with
    | .floatCol cells =>
      if any_nan cells then none
      else
        match list_min (fin_vals cells), list_max (fin_vals cells) with
        | some mn, some mx =>
          some { idx := idx, type_tag := "float", null_count := null_count,
                 num_rows := num_rows, min_double := mn, max_double := mx }
        | _, _ =>
          some { idx := idx, type_tag := "null", null_count := null_count, num_rows := num_rows }
    | .intCol cells =>
      match list_min (some_vals cells), list_max (some_vals cells) with
      | some mn, some mx =>
        some { idx := idx, type_tag := "int", null_count := null_count,
               num_rows := num_rows, min_int := mn, max_int := mx }
      | _, _ =>
        some { idx := idx, type_tag := "null", null_count := null_count, num_rows := num_rows }
    | .strCol cells =>
      match list_min (some_vals cells), list_max (some_vals cells) with
      | some mn, some mx =>
        some { idx := idx, type_tag := "str", null_count := null_count,
               num_rows := num_rows,
               max_str_len := ((list_max ((some_vals cells).map String.length)).getD 0),
               min_str := mn, max_str := mx }
      | _, _ =>
        some { idx := idx, type_tag := "null", null_count := null_count, num_rows := num_rows }
    | .dateCol cells =>
      match list_min (some_vals cells), list_max (some_vals cells) with
      | some mn, some mx =>
        some { idx := idx, type_tag := "int", null_count := null_count,
               num_rows := num_rows, min_int := mn, max_int := mx }
      | _, _ =>
        some { idx := idx, type_tag := "null", null_count := null_count, num_rows := num_rows }
    | .tsCol cells =>
      match list_min (some_vals cells), list_max (some_vals cells) with
      | some mn, some mx =>
        some { idx := idx, type_tag := "int", null_count := null_count,
               num_rows := num_rows, min_int := mn, max_int := mx }
      | _, _ =>
        some { idx := idx, type_tag := "null", null_count := null_count, num_rows := num_rows }

/-- The `for name in col_names` loop of `_compute_statistics_arrow`:
an unknown name raises `ValueError` (modelled by `none`), a skipped column
contributes nothing, an emitted tuple is appended. -/
def stats_loop_arrow (tbl : StatTable) : List String → Option (List StatTuple)
  | [] => some []
  | name :: rest =>
    match find_col_idx tbl name with
    | none => none
    | some (idx, entry) =>
      match stat_column_arrow idx entry.2, stats_loop_arrow tbl rest with
      | some t, some ts => some (t :: ts)
      | none, some ts => some ts
      | _, none => none

/-- Model of `_compute_statistics_arrow` in `backend.py`: empty frames give
an empty result, an empty resolution gives an empty result, otherwise the
per-column loop runs over the requested names. -/
def _compute_statistics_arrow (tbl : StatTable) (statistics : StatSpec) :
    Option (List StatTuple) :=
  if table_num_rows tbl = 0 then some []
  else
    match resolve_statistics_columns statistics with
    | .statsNone => some []
    | .statsTrue => stats_loop_arrow tbl (tbl.map (fun entry => entry.1))
    | .statsCols [] => some []
    | .statsCols (n :: ns) => stats_loop_arrow tbl (n :: ns)

/-- The per-column body of the `for name in col_names` loop of
`_compute_statistics_polars`, structured exactly as the Arrow one: the
all-null check, the float `is_nan().any()` skip, `col.min()` / `col.max()`
and the per-dtype tuple construction (ints, floats, strings, `pl.Date` as
days, `pl.Datetime` as microseconds). -/
def stat_column_polars (idx : Nat) (col : Column) : Option StatTuple :=
  let null_count := col.null_count
  let num_rows := col.num_rows
  if null_count = num_rows then
    some { idx := idx, type_tag := "null", null_count := null_count, num_rows := num_rows }
  else
    match col with
    | .floatCol cells =>
      if any_nan cells then none
      else
        match list_min (fin_vals cells), list_max (fin_vals cells) with
        | some mn, some mx =>
          some { idx := idx, type_tag := "float", null_count := null_count,
                 num_rows := num_rows, min_double := mn, max_double := mx }
        | _, _ =>
          some { idx := idx, type_tag := "null", null_count := null_count, num_rows := num_rows }
    | .intCol cells =>
      match list_min (some_vals cells), list_max (some_vals cells) with
      | some mn, some mx =>
        some { idx := idx, type_tag := "int", null_count := null_count,
               num_rows := num_rows, min_int := mn, max_int := mx }
      | _, _ =>
        some { idx := idx, type_tag := "null", null_count := null_count, num_rows := num_rows }
    | .strCol cells =>
      match list_min (some_vals cells), list_max (some_vals cells) with
      | some mn, some mx =>
        some { idx := idx, type_tag := "str", null_count := null_count,
               num_rows := num_rows,
               max_str_len := ((list_max ((some_vals cells).map String.length)).getD 0),
               min_str := mn, max_str := mx }
      | _, _ =>
        some { idx := idx, type_tag := "null", null_count := null_count, num_rows := num_rows }
    | .dateCol cells =>
      match list_min (some_vals cells), list_max (some_vals cells) with
      | some mn, some mx =>
        some { idx := idx, type_tag := "int", null_count := null_count,
               num_rows := num_rows, min_int := mn, max_int := mx }
      | _, _ =>
        some { idx := idx, type_tag := "null", null_count := null_count, num_rows := num_rows }
    | .tsCol cells =>
      match list_min (some_vals cells), list_max (some_vals cells) with
      | some mn, some mx =>
        some { idx := idx, type_tag := "int", null_count := null_count,
               num_rows := num_rows, min_int := mn, max_int := mx }
      | _, _ =>
        some { idx := idx, type_tag := "null", null_count := null_count, num_rows := num_rows }

/-- The `for name in col_names` loop of `_compute_statistics_polars`. -/
def stats_loop_polars (tbl : StatTable) : List String → Option (List StatTuple)
  | [] => some []
  | name :: rest =>
    match find_col_idx tbl name with
    | none => none
    | some (idx, entry) =>
      match stat_column_polars idx entry.2, stats_loop_polars tbl rest with
      | some t, some ts => some (t :: ts)
      | none, some ts => some ts
      | _, none => none

/-- Model of `_compute_statistics_polars` in `backend.py` (`df.height == 0`
gives an empty result, empty resolution gives an empty result, otherwise
the per-column loop). -/
def _compute_statistics_polars (tbl : StatTable) (statistics : StatSpec) :
    Option (List StatTuple) :=
  if table_num_rows tbl = 0 then some []
  else
    match resolve_statistics_columns statistics with
    | .statsNone => some []
    | .statsTrue => stats_loop_polars tbl (tbl.map (fun entry => entry.1))
    | .statsCols [] => some []
    | .statsCols (n :: ns) => stats_loop_polars tbl (n :: ns)

end backend

/-- Soundness of one emitted statistics tuple against its column: the null
count is the true null count and every non-null value lies between the
emitted minimum and maximum of its kind (`min_int`/`max_int` for
integer-like columns including dates-as-days and
timestamps-as-microseconds, `min_double`/`max_double` for floating columns
— which additionally contain no NaN when a tuple is emitted —
`min_str`/`max_str` for string columns). -/
def stat_sound (t : StatTuple) (col : Column) : Prop :=
  t.null_count = col.null_count ∧
  (match col with
   | .intCol cells => ∀ v ∈ some_vals cells, t.min_int ≤ v ∧ v ≤ t.max_int
   | .dateCol cells => ∀ v ∈ some_vals cells, t.min_int ≤ v ∧ v ≤ t.max_int
   | .tsCol cells => ∀ v ∈ some_vals cells, t.min_int ≤ v ∧ v ≤ t.max_int
   | .floatCol cells =>
     (∀ c ∈ cells, c ≠ some FVal.nan) ∧
     (∀ x : Int, some (FVal.fin x) ∈ cells → t.min_double ≤ x ∧ x ≤ t.max_double)
   | .strCol cells => ∀ v ∈ some_vals cells, t.min_str ≤ v ∧ v ≤ t.max_str)

/-- Engine-visible lifecycle events of the registration paths: creation of
an engine-side factory handle (`register_table_pyx` / `register_holder_pyx`),
insertion of the entry into the connection's registration map, and
destruction of a factory handle (`delete_factory_pyx` /
`delete_holder_factory_pyx`). -/
inductive RegEvent
  | createFactory (ptr : Nat)
  | insertEntry (name : String) (ptr : Nat)
  | destroyFactory (ptr : Nat)
deriving DecidableEq, Repr

namespace registration

/-- State of a `TableRegistration` (`bareduckdb/core/registration.py`):
the engine factory pointer, whether the held data reference is still set,
and the `_closed` flag.  The weak connection back-reference is modelled by
the `conn_alive` argument of `close`. -/
structure TableReg where
  name : String
  factory_ptr : Nat
  data_present : Bool
  closed : Bool
deriving DecidableEq, Repr

/-- Model of `TableRegistration.close`: under the close lock, a second call
returns immediately; the first call marks the registration closed, destroys
the factory handle when the pointer is nonzero and the weakly-referenced
connection is still alive, zeroes the pointer and drops the data reference.
Returns the new state and the engine events performed. -/
def close (conn_alive : Bool) (r : TableReg) : TableReg × List RegEvent :=
  if r.closed then (r, [])
  else
    let r1 : TableReg := { r with closed := true }
    if r1.factory_ptr ≠ 0 then
      let events := if conn_alive then [RegEvent.destroyFactory r1.factory_ptr] else []
      ({ r1 with factory_ptr := 0, data_present := false }, events)
    else
      ({ r1 with data_present := false }, [])

end registration

namespace backend_legacy

/-- Connection-side registration state of the legacy path
(`bareduckdb/dataset/backend.py` at the repo root): the
`connection_base._registrations` map and a counter from which
`register_table_pyx` hands out fresh (nonzero) factory pointers. -/
structure ConnState where
  registrations : List (String × registration.TableReg)
  next_ptr : Nat

/-- Dict update `connection_base._registrations[name] = registration`
(replace the first binding of the key, else append). -/
def assoc_set {α : Type} (l : List (String × α)) (k : String) (v : α) : List (String × α) :=
  match l with
  | [] => [(k, v)]
  | (k', v') :: rest => if k' = k then (k, v) :: rest else (k', v') :: assoc_set rest k v

/-- Model of the replace section of the legacy `register_table` (lines
70-81): under the init lock, read the old registration, create the new
factory in the engine, insert the new registration, and only then close
the old registration (which destroys its factory handle).  Returns the new
state and the engine events in program order. -/
def register_table (st : ConnState) (name : String) (conn_alive : Bool) :
    ConnState × List RegEvent :=
  let old_registration := st.registrations.lookup name
  let factory_ptr := st.next_ptr + 1
  let reg : registration.TableReg :=
    { name := name, factory_ptr := factory_ptr, data_present := true, closed := false }
  let close_events :=
    match old_registration with
    | some old => (registration.close conn_alive old).2
    | none => []
  (⟨assoc_set st.registrations name reg, factory_ptr⟩,
   [RegEvent.createFactory factory_ptr, RegEvent.insertEntry name factory_ptr] ++ close_events)

end backend_legacy

namespace backend

/-- Connection-side registration state of the holder path
(`src/bareduckdb/dataset/backend.py`): the
`connection_base._holder_factories` map (name to factory pointer; the held
holder object adds nothing to the claims) and a counter from which
`register_holder_pyx` hands out fresh pointers. -/
structure HolderConnState where
  holder_factories : List (String × Nat)
  next_ptr : Nat

/-- Model of the registration section of `register_table` in
`src/bareduckdb/dataset/backend.py` (lines 89-108): when `replace` is set
and the name is present, the old entry is popped and its factory destroyed
via `delete_holder_factory_pyx` *first*; only then is the new factory
created with `register_holder_pyx` and the new entry inserted.  Returns
the new state and the engine events in program order. -/
def register_table (st : HolderConnState) (name : String) (replace : Bool) :
    HolderConnState × List RegEvent :=
  let (factories1, delete_events) :=
    if replace then
      match st.holder_factories.lookup name with
      | some old_factory_ptr =>
        (st.holder_factories.eraseP (fun p => p.1 = name),
         [RegEvent.destroyFactory old_factory_ptr])
      | none => (st.holder_factories, [])
    else (st.holder_factories, [])
  let factory_ptr := st.next_ptr + 1
  (⟨backend_legacy.assoc_set factories1 name factory_ptr, factory_ptr⟩,
   delete_events ++ [RegEvent.createFactory factory_ptr, RegEvent.insertEntry name factory_ptr])

end backend

/-- The claim's ordering property for a replace trace: every new-factory
creation precedes every old-factory destruction ("creates and inserts the
new engine-side factory handle before the old entry's factory handle is
destroyed"). -/
def creates_before_destroys (events : List RegEvent) : Prop :=
  ∀ i j p q, events.get? i = some (RegEvent.destroyFactory p) →
    events.get? j = some (RegEvent.createFactory q) → j < i

namespace data_sources

/-- The recognised shapes of a registration input, as dispatched on by
`get_holder` in `data_sources/__init__.py` via type name and module. -/
inductive DataKind
  | polarsDataFrame
  | polarsLazyFrame
  | pyarrowTable
  | pyarrowDataset
  | pandasDataFrame
  | other

/-- The holder variants `get_holder` can produce. -/
inductive HolderKind
  | arrowHolder
  | polarsHolder
  | polarsLazyHolder
deriving DecidableEq, Repr

/-- Model of `get_holder` in `data_sources/__init__.py`.  A Polars eager
DataFrame is converted with `_polars_to_arrow` and wrapped in an
`ArrowHolder` when pyarrow imports ("testing showed that the pushdowns on
the arrow holder were faster than Polars"); only on `ImportError` is a
`PolarsHolder` used.  LazyFrames always get a `PolarsLazyHolder`; pyarrow
tables and datasets get an `ArrowHolder`; pandas frames are converted to
arrow; anything else yields `None`. -/
def get_holder (kind : DataKind) (pyarrow_available : Bool) : Option HolderKind :=
  match kind with
  | .polarsDataFrame =>
    if pyarrow_available then some .arrowHolder else some .polarsHolder
  | .polarsLazyFrame => some .polarsLazyHolder
  | .pyarrowTable => some .arrowHolder
  | .pyarrowDataset => some .arrowHolder
  | .pandasDataFrame => some .arrowHolder
  | .other => none

end data_sources

namespace arrow_holder

/-- The data accepted by `ArrowHolder.__init__`: an in-memory `pa.Table`
(modelled by its named columns) or a lazy `ds.Dataset` (modelled by its
schema only — its rows are not resident). -/
inductive ArrowData
  | table (t : StatTable)
  | dataset (schema : StatTable)

/-- The holder state set up by `ArrowHolder.__init__`: `_table` is the
table for in-memory data and `None` for a lazy dataset. -/
structure ArrowHolderState where
  table : Option StatTable

/-- Model of `ArrowHolder.__init__`. -/
def init (data : ArrowData) : ArrowHolderState :=
  match data with
  | .table t => { table := some t }
  | .dataset _ => { table := none }

/-- Model of `ArrowHolder.compute_statistics`: statistics are only computed
for in-memory tables (`if self._table is None: return []`); otherwise the
work is delegated to `_compute_statistics_arrow`. -/
def compute_statistics (h : ArrowHolderState) (columns : StatSpec) :
    Option (List StatTuple) :=
  match h.table with
  | none => some []
  | some t => backend._compute_statistics_arrow t columns

end arrow_holder

namespace polars_holder

/-- The holder state set up by `PolarsLazyHolder.__init__` (schema and the
one-shot collection cache; the plan itself plays no role in the claims). -/
structure PolarsLazyHolderState where
  column_names : List String
  cached : Bool

/-- Model of `PolarsLazyHolder.compute_statistics` ("LazyFrames don't
support statistics - would require full collection"). -/
def lazy_compute_statistics (_h : PolarsLazyHolderState) (_columns : StatSpec) :
    List StatTuple :=
  []

end polars_holder

namespace pystr

/-- One pass of Python `str.replace` over a character list, with explicit
fuel (`s.length` suffices for a nonempty pattern): scan left to right,
replace each non-overlapping occurrence of `pat` by `rep`. -/
def replace_aux (pat rep : List Char) : Nat → List Char → List Char
  | 0, s => s
  | _ + 1, [] => []
  | fuel + 1, c :: rest =>
    if pat.isPrefixOf (c :: rest) then
      rep ++ replace_aux pat rep fuel ((c :: rest).drop pat.length)
    else
      c :: replace_aux pat rep fuel rest

/-- Model of Python `str.replace(old, new)` (replace **all** non-overlapping
occurrences, left to right).  The empty-pattern corner of Python (which
inserts between every character) never arises for the reconstructed call
texts `name(args)` and is mapped to the identity. -/
def replace (s old new : String) : String :=
  if old.data.isEmpty then s
  else ⟨replace_aux old.data new.data s.data.length s.data⟩

/-- Whether `pat` occurs as a substring of `s` (helper for stating rewrite
outcomes). -/
def occurs_aux (pat : List Char) : List Char → Bool
  | [] => pat.isEmpty
  | c :: rest => pat.isPrefixOf (c :: rest) || occurs_aux pat rest

/-- Whether `pat` occurs as a substring of `s`. -/
def occurs_in (pat s : String) : Bool :=
  occurs_aux pat.data s.data

end pystr

namespace connection_api

/-- Model of `ConnectionAPI._generate_table_name`: the 8-hex uuid fragment
`uuid.uuid4().hex[:8]` is supplied as an argument (randomness is an input
of the model). -/
def _generate_table_name (func_name : String) (unique_id : String) : String :=
  "_udtf_" ++ func_name ++ "_" ++ unique_id

/-- One table-function call as collected by `_extract_function_calls`: the
function name, its literal argument texts, and the reconstructed source
text `f"{func_name}({', '.join(str(a) for a in args)})"` used for the
rewrite. -/
structure FuncCall where
  name : String
  args : List String
  original_text : String

/-- State threaded through the UDTF section of `_preprocess`: the `data`
bindings (transient name to the result of that invocation, results being
numbered in invocation order), the collected rewrite pairs, the number of
UDTF invocations performed (each iteration calls `_call_udtf`; results are
never memoized), and the remaining uuid fragments. -/
structure UdtfState where
  data : List (String × Nat)
  replacements : List (String × String)
  invocations : Nat
  next_result : Nat
  uuid_supply : List String

/-- The `for func_info in function_calls` loop of `_preprocess`: calls whose
name is registered get a fresh transient name, one UDTF invocation, one
`data` binding and one queued rewrite; other calls are left alone. -/
def process_udtf_calls (udtf_registry : List String) :
    UdtfState → List FuncCall → UdtfState
  | st, [] => st
  | st, func_info :: rest =>
    if func_info.name ∈ udtf_registry then
      let table_name := _generate_table_name func_info.name (st.uuid_supply.headD "")
      process_udtf_calls udtf_registry
        { data := st.data ++ [(table_name, st.next_result)],
          replacements := st.replacements ++ [(func_info.original_text, table_name)],
          invocations := st.invocations + 1,
          next_result := st.next_result + 1,
          uuid_supply := st.uuid_supply.tail } rest
    else
      process_udtf_calls udtf_registry st rest

/-- The `for repl in replacements: query = query.replace(...)` loop of
`_preprocess`: successive global text replacement. -/
def rewrite_query (query : String) (replacements : List (String × String)) : String :=
  replacements.foldl (fun q r => pystr.replace q r.1 r.2) query

/-- The UDTF section of `ConnectionAPI._preprocess`, given the function
calls extracted from the parsed AST and the stream of uuid fragments:
returns the rewritten query, the added `data` bindings, and the number of
UDTF invocations performed. -/
def _preprocess_udtf (udtf_registry : List String) (function_calls : List FuncCall)
    (query : String) (uuids : List String) : String × List (String × Nat) × Nat :=
  let st := process_udtf_calls udtf_registry
    { data := [], replacements := [], invocations := 0, next_result := 0,
      uuid_supply := uuids } function_calls
  (rewrite_query query st.replacements, st.data, st.invocations)

end connection_api

/-! ## Claim theorems -/

/-- C2: for every floating-point column and every `ConstantComparison`
filter whose comparison value is NaN, the translated native predicate —
both the Arrow dataset expression produced by `_apply_comparison` and the
Polars expression produced by `_translate_nan_comparison` (to which
`_translate_single_filter` routes every NaN-valued comparison) — selects a
cell `v` exactly per the six-case table: `== NaN` iff `v` is NaN, `!= NaN`
iff `v` is not NaN, `> NaN` never, `>= NaN` iff `v` is NaN, `< NaN` iff
`v` is not NaN, `<= NaN` always. -/
theorem c2_nan_comparison_table :
    ∀ v : FVal,
      (arrow_holder.eval_opt_ds
        (arrow_holder._apply_comparison "a" comparison_type.EQUAL
          (Value.floatV FVal.nan) ColType.floatT) v = decide (v = FVal.nan)) ∧
      (arrow_holder.eval_opt_ds
        (arrow_holder._apply_comparison "a" comparison_type.NOT_EQUAL
          (Value.floatV FVal.nan) ColType.floatT) v = ! decide (v = FVal.nan)) ∧
      (arrow_holder.eval_opt_ds
        (arrow_holder._apply_comparison "a" comparison_type.GREATER_THAN
          (Value.floatV FVal.nan) ColType.floatT) v = false) ∧
      (arrow_holder.eval_opt_ds
        (arrow_holder._apply_comparison "a" comparison_type.GREATER_THAN_OR_EQUAL
          (Value.floatV FVal.nan) ColType.floatT) v = decide (v = FVal.nan)) ∧
      (arrow_holder.eval_opt_ds
        (arrow_holder._apply_comparison "a" comparison_type.LESS_THAN
          (Value.floatV FVal.nan) ColType.floatT) v = ! decide (v = FVal.nan)) ∧
      (arrow_holder.eval_opt_ds
        (arrow_holder._apply_comparison "a" comparison_type.LESS_THAN_OR_EQUAL
          (Value.floatV FVal.nan) ColType.floatT) v = true) ∧
      (polars_holder.eval_pl_float
        (polars_holder._translate_nan_comparison comparison_type.EQUAL
          (polars_holder.ColExpr.col "a")) v = decide (v = FVal.nan)) ∧
      (polars_holder.eval_pl_float
        (polars_holder._translate_nan_comparison comparison_type.NOT_EQUAL
          (polars_holder.ColExpr.col "a")) v = ! decide (v = FVal.nan)) ∧
      (polars_holder.eval_pl_float
        (polars_holder._translate_nan_comparison comparison_type.GREATER_THAN
          (polars_holder.ColExpr.col "a")) v = false) ∧
      (polars_holder.eval_pl_float
        (polars_holder._translate_nan_comparison comparison_type.GREATER_THAN_OR_EQUAL
          (polars_holder.ColExpr.col "a")) v = decide (v = FVal.nan)) ∧
      (polars_holder.eval_pl_float
        (polars_holder._translate_nan_comparison comparison_type.LESS_THAN
          (polars_holder.ColExpr.col "a")) v = ! decide (v = FVal.nan)) ∧
      (polars_holder.eval_pl_float
        (polars_holder._translate_nan_comparison comparison_type.LESS_THAN_OR_EQUAL
          (polars_holder.ColExpr.col "a")) v = true) ∧
      (∀ comparison : Nat,
        polars_holder._translate_single_filter
            (TableFilter.constantComparison comparison (Value.floatV FVal.nan)) "a"
          = polars_holder._translate_nan_comparison comparison (polars_holder.ColExpr.col "a")) := by
  intro v
  refine ⟨?_, ?_, ?_, ?_, ?_, ?_, ?_, ?_, ?_, ?_, ?_, ?_, ?_⟩
  case _ => cases v <;> rfl
  case _ => cases v <;> rfl
  case _ => cases v <;> rfl
  case _ => cases v <;> rfl
  case _ => cases v <;> rfl
  case _ => cases v <;> rfl
  case _ => cases v <;> rfl
  case _ => cases v <;> rfl
  case _ => cases v <;> rfl
  case _ => cases v <;> rfl
  case _ => cases v <;> rfl
  case _ => cases v <;> rfl
  case _ =>
    intro comparison
    simp [polars_holder._translate_single_filter, polars_holder.value_is_nan]

/-- C8 (counterexample): with pyarrow importable, a registered Polars eager
DataFrame is handled by the `ArrowHolder` (Arrow dataset-expression
pushdown), not by the `PolarsHolder` column-expression path the claim
describes. -/
theorem c8_counterexample :
    data_sources.get_holder data_sources.DataKind.polarsDataFrame true
        = some data_sources.HolderKind.arrowHolder ∧
      data_sources.get_holder data_sources.DataKind.polarsDataFrame true
        ≠ some data_sources.HolderKind.polarsHolder := by
  decide

/-- C8 (amended): a registered Polars eager DataFrame is converted to Arrow
and held by an `ArrowHolder` whenever pyarrow is importable; only when the
conversion's imports fail is it held by a `PolarsHolder`, whose
`produce_filtered` then executes pushdown in the library's
column-expression form. -/
theorem c8_polars_dispatch :
    ∀ pyarrow_available : Bool,
      data_sources.get_holder data_sources.DataKind.polarsDataFrame pyarrow_available
        = some (if pyarrow_available then data_sources.HolderKind.arrowHolder
                else data_sources.HolderKind.polarsHolder) := by
  intro b
  cases b <;> rfl

/-- C9: closing a `TableRegistration` a second time is a no-op: the second
call performs no engine-side factory destruction (no events) and leaves the
registration state unchanged, whatever the liveness of the weakly
referenced connection at either call. -/
theorem c9_idempotent_close :
    ∀ (r : registration.TableReg) (alive1 alive2 : Bool),
      registration.close alive2 (registration.close alive1 r).1
        = ((registration.close alive1 r).1, []) := by
  intro r alive1 alive2
  by_cases h : r.closed
  · simp [registration.close, h]
  · simp only [registration.close, h]
    by_cases h2 : r.factory_ptr ≠ 0
    · simp [h2]
    · simp [h2]

/-- C10: lazy sources never supply statistics: an `ArrowHolder` constructed
from a lazy `ds.Dataset` and a `PolarsLazyHolder` both return the empty
statistics list for every statistics specification. -/
theorem c10_lazy_no_statistics :
    ∀ (schema : StatTable) (spec : StatSpec)
      (lazy_holder : polars_holder.PolarsLazyHolderState),
      arrow_holder.compute_statistics (arrow_holder.init (arrow_holder.ArrowData.dataset schema)) spec
          = some [] ∧
        polars_holder.lazy_compute_statistics lazy_holder spec = [] := by
  intro schema spec lazy_holder
  exact ⟨rfl, rfl⟩

/-- Dropping the out-of-range entries of a filter map does not change the
Arrow translation (helper for the unknown-column-index claim). -/
theorem arrow_loop_drop (column_names : List String) (schema : List (String × ColType)) :
    ∀ (filters : List (Nat × TableFilter)) (acc : Option arrow_holder.DsExpr),
      arrow_holder.translate_filters_loop column_names schema acc filters
        = arrow_holder.translate_filters_loop column_names schema acc
            (filters.filter (fun p => decide (p.1 < column_names.length)))
  | [], acc => by simp
  | (col_idx, f) :: tl, acc => by
    by_cases hi : col_idx < column_names.length
    · have hge : ¬ col_idx ≥ column_names.length := by omega
      rw [List.filter_cons_of_pos (by simpa using hi)]
      simp only [arrow_holder.translate_filters_loop, if_neg hge]
      cases hl : (schema.lookup (column_names.getD col_idx "")) with
      | none => exact arrow_loop_drop column_names schema tl acc
      | some column_type =>
        by_cases hs : arrow_holder._is_supported_filter_type column_type
        · simp only [hs, not_true, if_neg, ite_false]
          cases ht : arrow_holder._translate_single_filter f (column_names.getD col_idx "") column_type with
          | none => exact arrow_loop_drop column_names schema tl acc
          | some e =>
            cases acc with
            | none => exact arrow_loop_drop column_names schema tl _
            | some r => exact arrow_loop_drop column_names schema tl _
        · simp only [hs, not_false_iff, if_pos]
          exact arrow_loop_drop column_names schema tl acc
    · have hge : col_idx ≥ column_names.length := by omega
      rw [List.filter_cons_of_neg (by simpa using hi)]
      simp only [arrow_holder.translate_filters_loop, if_pos hge]
      exact arrow_loop_drop column_names schema tl acc

/-- Dropping the out-of-range entries of a filter map does not change the
Polars translation (helper for the unknown-column-index claim). -/
theorem polars_loop_drop (column_names : List String) :
    ∀ (filters : List (Nat × TableFilter)) (acc : Option polars_holder.PlExpr),
      polars_holder.translate_filters_loop column_names acc filters
        = polars_holder.translate_filters_loop column_names acc
            (filters.filter (fun p => decide (p.1 < column_names.length)))
  | [], acc => by simp
  | (col_idx, f) :: tl, acc => by
    by_cases hi : col_idx < column_names.length
    · have hge : ¬ col_idx ≥ column_names.length := by omega
      rw [List.filter_cons_of_pos (by simpa using hi)]
      simp only [polars_holder.translate_filters_loop, if_neg hge]
      cases acc with
      | none => exact polars_loop_drop column_names tl _
      | some r => exact polars_loop_drop column_names tl _
    · have hge : col_idx ≥ column_names.length := by omega
      rw [List.filter_cons_of_neg (by simpa using hi)]
      simp only [polars_holder.translate_filters_loop, if_pos hge]
      exact polars_loop_drop column_names tl acc

/-- C6: in both filter translators, every filter keyed by a column index
that is not a position of `column_names` is silently dropped — the
translation (which stays total, raising nothing) equals the translation of
the filter map restricted to the in-range keys, so the remaining filters
are unaffected. -/
theorem c6_unknown_index_dropped :
    (∀ (filters : List (Nat × TableFilter)) (column_names : List String)
       (schema : List (String × ColType)),
       arrow_holder._translate_filters_to_dataset filters column_names schema
         = arrow_holder._translate_filters_to_dataset
             (filters.filter (fun p => decide (p.1 < column_names.length))) column_names schema) ∧
    (∀ (filters : List (Nat × TableFilter)) (column_names : List String),
       polars_holder._translate_filters_to_polars filters column_names
         = polars_holder._translate_filters_to_polars
             (filters.filter (fun p => decide (p.1 < column_names.length))) column_names) := by
  constructor
  · intro filters column_names schema
    exact arrow_loop_drop column_names schema filters none
  · intro filters column_names
    exact polars_loop_drop column_names filters none

/-- C3 (counterexample): with the empty projection list and no filters —
the engine's schema-probe shape — `PolarsHolder.produce_filtered` returns
the full schema, not the empty-schema stream the claim (and the projection
of the schema by the empty list) requires, because `if projected_columns:`
treats the empty list as falsy. -/
theorem c3_counterexample :
    polars_holder.produce_filtered_schema ["a"] (some []) none = ["a"] ∧
      spec_projected_schema ["a"] (some []) = [] ∧
      polars_holder.produce_filtered_schema ["a"] (some []) none
        ≠ spec_projected_schema ["a"] (some []) := by
  decide

/-- C3 (amended): the schema of the stream returned by
`produce_filtered(P, F)` equals the projection of the holder's schema by
`P` for the `ArrowHolder` at every `P` and `F` (including the empty-list
probe, honoured through the scanner), and for the Polars holders at every
`P` other than the empty list; at `P = []` the Polars holders skip the
projection (empty list is falsy) and return the full schema instead of the
empty schema. -/
theorem c3_schema_stability :
    (∀ (schema_names : List String) (P : Option (List String))
       (F : Option (List (Nat × TableFilter))),
       arrow_holder.produce_filtered_schema schema_names P F
         = spec_projected_schema schema_names P) ∧
    (∀ (schema_names : List String) (P : Option (List String))
       (F : Option (List (Nat × TableFilter))),
       P ≠ some [] →
       polars_holder.produce_filtered_schema schema_names P F
         = spec_projected_schema schema_names P) ∧
    (∀ (schema_names : List String) (P : Option (List String))
       (F : Option (List (Nat × TableFilter))) (cached : Bool),
       P ≠ some [] →
       polars_holder.lazy_produce_filtered_schema schema_names P F cached
         = spec_projected_schema schema_names P) ∧
    (∀ (schema_names : List String) (F : Option (List (Nat × TableFilter))) (cached : Bool),
       polars_holder.produce_filtered_schema schema_names (some []) F = schema_names ∧
       polars_holder.lazy_produce_filtered_schema schema_names (some []) F cached
         = schema_names) := by
  refine ⟨?_, ?_, ?_, ?_⟩
  · intro schema_names P F
    cases P with
    | none =>
      cases F <;> simp [arrow_holder.produce_filtered_schema, spec_projected_schema]
    | some cols =>
      simp [arrow_holder.produce_filtered_schema, spec_projected_schema]
  · intro schema_names P F h
    cases P with
    | none =>
      cases F <;> simp [polars_holder.produce_filtered_schema, spec_projected_schema]
    | some cols =>
      cases cols with
      | nil => exact absurd rfl h
      | cons c cs =>
        simp [polars_holder.produce_filtered_schema, spec_projected_schema]
  · intro schema_names P F cached h
    cases P with
    | none =>
      cases F with
      | none => simp [polars_holder.lazy_produce_filtered_schema, spec_projected_schema]
      | some fs =>
        simp only [polars_holder.lazy_produce_filtered_schema, spec_projected_schema,
          Option.isNone_none, Option.isNone_some, Bool.and_false, Bool.false_eq_true, if_false]
        split <;> rfl
    | some cols =>
      cases cols with
      | nil => exact absurd rfl h
      | cons c cs =>
        simp only [polars_holder.lazy_produce_filtered_schema, spec_projected_schema,
          Option.isNone_some, Bool.false_and, Bool.false_eq_true, if_false]
        split <;> rfl
  · intro schema_names F cached
    constructor
    · simp [polars_holder.produce_filtered_schema]
    · simp only [polars_holder.lazy_produce_filtered_schema, Option.isNone_some,
        Bool.false_and, Bool.false_eq_true, if_false]
      split <;> rfl

/-- C3 (witness): the amended schema-stability theorem at a concrete
holder, projection and filter set. -/
theorem c3_schema_stability_witness :
    polars_holder.produce_filtered_schema ["a", "b"] (some ["b"]) none
      = spec_projected_schema ["a", "b"] (some ["b"]) :=
  c3_schema_stability.2.1 ["a", "b"] (some ["b"]) none (by decide)

/-- C1 (counterexample): in the holder-factory backend
(`src/bareduckdb/dataset/backend.py`), replacing a live registration
destroys the old entry's factory handle *before* the new factory handle is
created: on a connection holding `t` with factory 7, the replace trace is
`[destroy 7, create 8, insert t 8]`, so the claimed
create-before-destroy ordering fails. -/
theorem c1_counterexample :
    ¬ creates_before_destroys (backend.register_table ⟨[("t", 7)], 7⟩ "t" true).2 := by
  intro h
  have h2 := h 0 1 7 8 rfl rfl
  omega

/-- C1 (amended): the two replace paths order the handle swap differently.
In the legacy `TableRegistration` path (`bareduckdb/dataset/backend.py` at
the repo root) the new factory handle is created and inserted before the
old entry is closed: the trace is `[create, insert]` followed by the old
registration's close events, and every destroy event sits at position ≥ 2.
In the holder-factory dataset backend (`src/bareduckdb/dataset/backend.py`)
the old entry's factory handle is destroyed *before* the new one is
created: the trace is `[destroy old, create new, insert new]`. -/
theorem c1_replace_order :
    (∀ (st : backend_legacy.ConnState) (name : String) (conn_alive : Bool)
       (old : registration.TableReg),
       st.registrations.lookup name = some old →
       (backend_legacy.register_table st name conn_alive).2
           = [RegEvent.createFactory (st.next_ptr + 1),
              RegEvent.insertEntry name (st.next_ptr + 1)]
             ++ (registration.close conn_alive old).2 ∧
         ∀ j q, (backend_legacy.register_table st name conn_alive).2.get? j
             = some (RegEvent.destroyFactory q) → 2 ≤ j) ∧
    (∀ (st : backend.HolderConnState) (name : String) (old_ptr : Nat),
       st.holder_factories.lookup name = some old_ptr →
       (backend.register_table st name true).2
         = [RegEvent.destroyFactory old_ptr,
            RegEvent.createFactory (st.next_ptr + 1),
            RegEvent.insertEntry name (st.next_ptr + 1)]) := by
  constructor
  · intro st name conn_alive old h
    constructor
    · simp [backend_legacy.register_table, h]
    · intro j q hj
      simp only [backend_legacy.register_table, h] at hj
      match j with
      | 0 => simp at hj
      | 1 => simp at hj
      | j + 2 => omega
  · intro st name old_ptr h
    simp [backend.register_table, h]

/-- C1 (witness): the amended replace-ordering theorem at concrete
connection states holding a live registration named `t` with factory
handle 7. -/
theorem c1_replace_order_witness :
    ((backend_legacy.register_table ⟨[("t", ⟨"t", 7, true, false⟩)], 7⟩ "t" true).2
        = [RegEvent.createFactory 8, RegEvent.insertEntry "t" 8]
            ++ (registration.close true ⟨"t", 7, true, false⟩).2) ∧
      (backend.register_table ⟨[("t", 7)], 7⟩ "t" true).2
        = [RegEvent.destroyFactory 7, RegEvent.createFactory 8,
           RegEvent.insertEntry "t" 8] :=
  ⟨(c1_replace_order.1 ⟨[("t", ⟨"t", 7, true, false⟩)], 7⟩ "t" true
      ⟨"t", 7, true, false⟩ (by decide)).1,
   c1_replace_order.2 ⟨[("t", 7)], 7⟩ "t" 7 (by decide)⟩

/-- Appending distinct suffixes to a common prefix yields distinct strings
(helper for transient-name distinctness). -/
theorem string_append_ne (p : String) {u1 u2 : String} (h : u1 ≠ u2) :
    p ++ u1 ≠ p ++ u2 := by
  intro hEq
  apply h
  have hd := congrArg String.data hEq
  simp only [String.data_append] at hd
  exact String.ext (List.append_cancel_left hd)

/-- C7 (counterexample): two calls of the same UDTF with identical
reconstructed source text get two transient names, two invocations and two
bindings, but the query rewrite — successive *global* `str.replace` —
sends **both** occurrences to the first call's transient name; the second
transient name never appears in the rewritten SQL, so the claim's "rewrites
each function-call source text to its own transient name" fails. -/
theorem c7_counterexample :
    (connection_api._preprocess_udtf ["f"]
        [⟨"f", ["1"], "f(1)"⟩, ⟨"f", ["1"], "f(1)"⟩]
        "SELECT * FROM f(1), f(1)" ["aaaaaaaa", "bbbbbbbb"]).1
        = "SELECT * FROM _udtf_f_aaaaaaaa, _udtf_f_aaaaaaaa" ∧
      pystr.occurs_in "_udtf_f_bbbbbbbb"
        (connection_api._preprocess_udtf ["f"]
          [⟨"f", ["1"], "f(1)"⟩, ⟨"f", ["1"], "f(1)"⟩]
          "SELECT * FROM f(1), f(1)" ["aaaaaaaa", "bbbbbbbb"]).1 = false ∧
      (connection_api._preprocess_udtf ["f"]
        [⟨"f", ["1"], "f(1)"⟩, ⟨"f", ["1"], "f(1)"⟩]
        "SELECT * FROM f(1), f(1)" ["aaaaaaaa", "bbbbbbbb"]).2.1
        = [("_udtf_f_aaaaaaaa", 0), ("_udtf_f_bbbbbbbb", 1)] := by
  refine ⟨by decide, by decide, by decide⟩

/-- C7 (amended): when preprocessing finds two calls of the same registered
UDTF, it generates two transient names `_udtf_<name>_<uuid>` from the two
8-hex uuid fragments (distinct whenever the fragments are, which uuid4
supplies), invokes the UDTF twice (no memoization), and adds two distinct
bindings; the SQL text is then rewritten by successive global replacement
of each call's reconstructed source text with its transient name (so only
calls with distinct source texts each receive their own name; identical
texts all collapse to the first name, as the counterexample shows). -/
theorem c7_udtf_two_calls :
    ∀ (udtf_registry : List String) (f o1 o2 : String) (a1 a2 : List String)
      (u1 u2 : String) (query : String),
      f ∈ udtf_registry → u1 ≠ u2 →
      (connection_api._preprocess_udtf udtf_registry
          [⟨f, a1, o1⟩, ⟨f, a2, o2⟩] query [u1, u2]).2.1
          = [(connection_api._generate_table_name f u1, 0),
             (connection_api._generate_table_name f u2, 1)] ∧
        (connection_api._preprocess_udtf udtf_registry
          [⟨f, a1, o1⟩, ⟨f, a2, o2⟩] query [u1, u2]).2.2 = 2 ∧
        connection_api._generate_table_name f u1
          ≠ connection_api._generate_table_name f u2 ∧
        (connection_api._preprocess_udtf udtf_registry
          [⟨f, a1, o1⟩, ⟨f, a2, o2⟩] query [u1, u2]).1
          = pystr.replace
              (pystr.replace query o1 (connection_api._generate_table_name f u1))
              o2 (connection_api._generate_table_name f u2) := by
  intro udtf_registry f o1 o2 a1 a2 u1 u2 query hf hu
  refine ⟨?_, ?_, ?_, ?_⟩
  · simp [connection_api._preprocess_udtf, connection_api.process_udtf_calls, hf]
  · simp [connection_api._preprocess_udtf, connection_api.process_udtf_calls, hf]
  · exact string_append_ne ("_udtf_" ++ f ++ "_") hu
  · simp [connection_api._preprocess_udtf, connection_api.process_udtf_calls, hf,
      connection_api.rewrite_query]

/-- C7 (witness): the amended two-call theorem at a concrete registry,
call pair and uuid supply. -/
theorem c7_udtf_two_calls_witness :
    (connection_api._preprocess_udtf ["f"]
        [⟨"f", ["1"], "f(1)"⟩, ⟨"f", ["2"], "f(2)"⟩]
        "SELECT * FROM f(1), f(2)" ["aaaaaaaa", "bbbbbbbb"]).2.1
        = [(connection_api._generate_table_name "f" "aaaaaaaa", 0),
           (connection_api._generate_table_name "f" "bbbbbbbb", 1)] ∧
      (connection_api._preprocess_udtf ["f"]
        [⟨"f", ["1"], "f(1)"⟩, ⟨"f", ["2"], "f(2)"⟩]
        "SELECT * FROM f(1), f(2)" ["aaaaaaaa", "bbbbbbbb"]).2.2 = 2 ∧
      connection_api._generate_table_name "f" "aaaaaaaa"
        ≠ connection_api._generate_table_name "f" "bbbbbbbb" ∧
      (connection_api._preprocess_udtf ["f"]
        [⟨"f", ["1"], "f(1)"⟩, ⟨"f", ["2"], "f(2)"⟩]
        "SELECT * FROM f(1), f(2)" ["aaaaaaaa", "bbbbbbbb"]).1
        = pystr.replace
            (pystr.replace "SELECT * FROM f(1), f(2)" "f(1)"
              (connection_api._generate_table_name "f" "aaaaaaaa"))
            "f(2)" (connection_api._generate_table_name "f" "bbbbbbbb") :=
  c7_udtf_two_calls ["f"] "f" "f(1)" "f(2)" ["1"] ["2"] "aaaaaaaa" "bbbbbbbb"
    "SELECT * FROM f(1), f(2)" (by decide) (by decide)

theorem count_nulls_cons_none {α : Type} (rest : List (Option α)) :
    count_nulls (none :: rest) = count_nulls rest + 1 := by
  simp [count_nulls, List.filter_cons]

theorem count_nulls_cons_some {α : Type} (v : α) (rest : List (Option α)) :
    count_nulls (some v :: rest) = count_nulls rest := by
  simp [count_nulls, List.filter_cons]

theorem count_nulls_le_length {α : Type} (cells : List (Option α)) :
    count_nulls cells ≤ cells.length := by
  simpa [count_nulls] using List.length_filter_le (fun c => c.isNone) cells

theorem count_nulls_all_none {α : Type} (cells : List (Option α))
    (h : count_nulls cells = cells.length) : ∀ c ∈ cells, c = none := by
  induction cells with
  | nil => intro c hc; cases hc
  | cons cell rest ih =>
    cases cell with
    | none =>
      intro c hc
      rcases List.mem_cons.mp hc with rfl | hc'
      · rfl
      · refine ih ?_ c hc'
        rw [count_nulls_cons_none, List.length_cons] at h
        omega
    | some v =>
      exfalso
      have hle := count_nulls_le_length rest
      rw [count_nulls_cons_some, List.length_cons] at h
      omega

theorem mem_some_vals {α : Type} {v : α} {cells : List (Option α)} :
    v ∈ some_vals cells ↔ some v ∈ cells := by
  simp [some_vals, List.mem_filterMap]

theorem mem_fin_vals {x : Int} {cells : List (Option FVal)} :
    x ∈ fin_vals cells ↔ some (FVal.fin x) ∈ cells := by
  constructor
  · intro h
    rcases List.mem_filterMap.mp h with ⟨c, hc, hcx⟩
    match c with
    | some (FVal.fin y) =>
      simp only [Option.some.injEq] at hcx
      exact hcx ▸ hc
    | some FVal.nan => simp at hcx
    | none => simp at hcx
  · intro h
    exact List.mem_filterMap.mpr ⟨some (FVal.fin x), h, rfl⟩

theorem any_nan_false_no_nan {cells : List (Option FVal)} (h : any_nan cells = false) :
    ∀ c ∈ cells, c ≠ some FVal.nan := by
  intro c hc
  simp only [any_nan, List.any_eq_false, decide_eq_true_eq] at h
  exact h c hc

theorem any_nan_not_all_null {cells : List (Option FVal)} (h : any_nan cells = true) :
    count_nulls cells ≠ cells.length := by
  intro hall
  rcases (by simpa [any_nan, List.any_eq_true] using h : ∃ c ∈ cells, c = some FVal.nan)
    with ⟨c, hc, rfl⟩
  exact Option.noConfusion (count_nulls_all_none cells hall _ hc)

theorem list_min_eq_none {α : Type} [LinearOrder α] (l : List α) :
    list_min l = none ↔ l = [] := by
  cases l <;> simp [list_min]

theorem list_max_eq_none {α : Type} [LinearOrder α] (l : List α) :
    list_max l = none ↔ l = [] := by
  cases l <;> simp [list_max]

theorem list_min_le {α : Type} [LinearOrder α] (l : List α) :
    ∀ m, list_min l = some m → ∀ v ∈ l, m ≤ v := by
  induction l with
  | nil => intro m h; simp [list_min] at h
  | cons x xs ih =>
    intro m h v hv
    cases hmin : list_min xs with
    | none =>
      have hxs : xs = [] := (list_min_eq_none xs).mp hmin
      subst hxs
      have hx : m = x := by simpa [list_min] using h.symm
      rcases List.mem_cons.mp hv with rfl | hv'
      · exact le_of_eq hx
      · cases hv'
    | some m' =>
      have hm : m = min x m' := by simpa [list_min, hmin] using h.symm
      rcases List.mem_cons.mp hv with rfl | hv'
      · exact hm ▸ min_le_left _ _
      · exact hm ▸ le_trans (min_le_right x m') (ih m' hmin v hv')

theorem list_max_ge {α : Type} [LinearOrder α] (l : List α) :
    ∀ m, list_max l = some m → ∀ v ∈ l, v ≤ m := by
  induction l with
  | nil => intro m h; simp [list_max] at h
  | cons x xs ih =>
    intro m h v hv
    cases hmax : list_max xs with
    | none =>
      have hxs : xs = [] := (list_max_eq_none xs).mp hmax
      subst hxs
      have hx : m = x := by simpa [list_max] using h.symm
      rcases List.mem_cons.mp hv with rfl | hv'
      · exact le_of_eq hx.symm
      · cases hv'
    | some m' =>
      have hm : m = max x m' := by simpa [list_max, hmax] using h.symm
      rcases List.mem_cons.mp hv with rfl | hv'
      · exact hm ▸ le_max_left _ _
      · exact hm ▸ le_trans (ih m' hmax v hv') (le_max_right x m')

theorem stat_column_arrow_idx {i : Nat} {col : Column} {t : StatTuple}
    (h : backend.stat_column_arrow i col = some t) : t.idx = i := by
  simp only [backend.stat_column_arrow] at h
  repeat' split at h
  all_goals (cases h <;> rfl)

theorem stat_column_arrow_nan_skip {i : Nat} {cells : List (Option FVal)}
    (h : any_nan cells = true) :
    backend.stat_column_arrow i (Column.floatCol cells) = none := by
  have hne := any_nan_not_all_null h
  simp only [backend.stat_column_arrow, Column.null_count, Column.num_rows]
  rw [if_neg hne]
  simp [h]

theorem stat_column_arrow_sound {i : Nat} {col : Column} {t : StatTuple}
    (h : backend.stat_column_arrow i col = some t) : stat_sound t col := by
  unfold stat_sound
  simp only [backend.stat_column_arrow] at h
  split at h
  case isTrue hall =>
    cases h
    cases col with
    | intCol cells =>
      refine ⟨rfl, ?_⟩
      intro v hv
      have hn := count_nulls_all_none cells
        (by simpa [Column.null_count, Column.num_rows] using hall) _ (mem_some_vals.mp hv)
      cases hn
    | dateCol cells =>
      refine ⟨rfl, ?_⟩
      intro v hv
      have hn := count_nulls_all_none cells
        (by simpa [Column.null_count, Column.num_rows] using hall) _ (mem_some_vals.mp hv)
      cases hn
    | tsCol cells =>
      refine ⟨rfl, ?_⟩
      intro v hv
      have hn := count_nulls_all_none cells
        (by simpa [Column.null_count, Column.num_rows] using hall) _ (mem_some_vals.mp hv)
      cases hn
    | strCol cells =>
      refine ⟨rfl, ?_⟩
      intro v hv
      have hn := count_nulls_all_none cells
        (by simpa [Column.null_count, Column.num_rows] using hall) _ (mem_some_vals.mp hv)
      cases hn
    | floatCol cells =>
      refine ⟨rfl, ?_, ?_⟩
      · intro c hc
        rw [count_nulls_all_none cells
          (by simpa [Column.null_count, Column.num_rows] using hall) c hc]
        simp
      · intro x hx
        have hn := count_nulls_all_none cells
          (by simpa [Column.null_count, Column.num_rows] using hall) _ hx
        cases hn
  case isFalse hall =>
    cases col with
    | intCol cells =>
      dsimp only at h
      rcases hmin : list_min (some_vals cells) with _ | mn
      · have hsv : some_vals cells = [] := (list_min_eq_none _).mp hmin
        rw [hmin] at h
        cases h
        refine ⟨rfl, ?_⟩
        intro v hv
        rw [hsv] at hv
        cases hv
      · rcases hmax : list_max (some_vals cells) with _ | mx
        · have hsv : some_vals cells = [] := (list_max_eq_none _).mp hmax
          rw [hmin, hmax] at h
          cases h
          refine ⟨rfl, ?_⟩
          intro v hv
          rw [hsv] at hv
          cases hv
        · rw [hmin, hmax] at h
          cases h
          refine ⟨rfl, ?_⟩
          intro v hv
          exact ⟨list_min_le _ _ hmin v hv, list_max_ge _ _ hmax v hv⟩
    | dateCol cells =>
      dsimp only at h
      rcases hmin : list_min (some_vals cells) with _ | mn
      · have hsv : some_vals cells = [] := (list_min_eq_none _).mp hmin
        rw [hmin] at h
        cases h
        refine ⟨rfl, ?_⟩
        intro v hv
        rw [hsv] at hv
        cases hv
      · rcases hmax : list_max (some_vals cells) with _ | mx
        · have hsv : some_vals cells = [] := (list_max_eq_none _).mp hmax
          rw [hmin, hmax] at h
          cases h
          refine ⟨rfl, ?_⟩
          intro v hv
          rw [hsv] at hv
          cases hv
        · rw [hmin, hmax] at h
          cases h
          refine ⟨rfl, ?_⟩
          intro v hv
          exact ⟨list_min_le _ _ hmin v hv, list_max_ge _ _ hmax v hv⟩
    | tsCol cells =>
      dsimp only at h
      rcases hmin : list_min (some_vals cells) with _ | mn
      · have hsv : some_vals cells = [] := (list_min_eq_none _).mp hmin
        rw [hmin] at h
        cases h
        refine ⟨rfl, ?_⟩
        intro v hv
        rw [hsv] at hv
        cases hv
      · rcases hmax : list_max (some_vals cells) with _ | mx
        · have hsv : some_vals cells = [] := (list_max_eq_none _).mp hmax
          rw [hmin, hmax] at h
          cases h
          refine ⟨rfl, ?_⟩
          intro v hv
          rw [hsv] at hv
          cases hv
        · rw [hmin, hmax] at h
          cases h
          refine ⟨rfl, ?_⟩
          intro v hv
          exact ⟨list_min_le _ _ hmin v hv, list_max_ge _ _ hmax v hv⟩
    | strCol cells =>
      dsimp only at h
      rcases hmin : list_min (some_vals cells) with _ | mn
      · have hsv : some_vals cells = [] := (list_min_eq_none _).mp hmin
        rw [hmin] at h
        cases h
        refine ⟨rfl, ?_⟩
        intro v hv
        rw [hsv] at hv
        cases hv
      · rcases hmax : list_max (some_vals cells) with _ | mx
        · have hsv : some_vals cells = [] := (list_max_eq_none _).mp hmax
          rw [hmin, hmax] at h
          cases h
          refine ⟨rfl, ?_⟩
          intro v hv
          rw [hsv] at hv
          cases hv
        · rw [hmin, hmax] at h
          cases h
          refine ⟨rfl, ?_⟩
          intro v hv
          exact ⟨list_min_le _ _ hmin v hv, list_max_ge _ _ hmax v hv⟩
    | floatCol cells =>
      dsimp only at h
      by_cases hnan : any_nan cells = true
      · rw [hnan] at h
        simp at h
      · have hnan' : any_nan cells = false := by simpa using hnan
        rw [hnan'] at h
        simp only [Bool.false_eq_true, if_false] at h
        rcases hmin : list_min (fin_vals cells) with _ | mn
        · have hsv : fin_vals cells = [] := (list_min_eq_none _).mp hmin
          rw [hmin] at h
          cases h
          refine ⟨rfl, any_nan_false_no_nan hnan', ?_⟩
          intro x hx
          have : x ∈ fin_vals cells := mem_fin_vals.mpr hx
          rw [hsv] at this
          cases this
        · rcases hmax : list_max (fin_vals cells) with _ | mx
          · have hsv : fin_vals cells = [] := (list_max_eq_none _).mp hmax
            rw [hmin, hmax] at h
            cases h
            refine ⟨rfl, any_nan_false_no_nan hnan', ?_⟩
            intro x hx
            have : x ∈ fin_vals cells := mem_fin_vals.mpr hx
            rw [hsv] at this
            cases this
          · rw [hmin, hmax] at h
            cases h
            refine ⟨rfl, any_nan_false_no_nan hnan', ?_⟩
            intro x hx
            have hxm : x ∈ fin_vals cells := mem_fin_vals.mpr hx
            exact ⟨list_min_le _ _ hmin x hxm, list_max_ge _ _ hmax x hxm⟩

theorem find_col_idx_get (tbl : StatTable) (name : String) :
    ∀ (i : Nat) (entry : String × Column),
      backend.find_col_idx tbl name = some (i, entry) → tbl.get? i = some entry := by
  induction tbl with
  | nil => intro i entry h; simp [backend.find_col_idx] at h
  | cons e rest ih =>
    intro i entry h
    unfold backend.find_col_idx at h
    by_cases he : e.1 = name
    · rw [if_pos he] at h
      simp only [Option.some.injEq, Prod.mk.injEq] at h
      obtain ⟨hi, hent⟩ := h
      subst hi
      subst hent
      rfl
    · rw [if_neg he] at h
      cases hf : backend.find_col_idx rest name with
      | none => rw [hf] at h; simp at h
      | some p =>
        rw [hf] at h
        obtain ⟨i', e'⟩ := p
        simp only [Option.map_some', Option.some.injEq, Prod.mk.injEq] at h
        obtain ⟨hi, hent⟩ := h
        subst hi
        subst hent
        simpa using ih i' e' hf

theorem stats_loop_arrow_mem (tbl : StatTable) :
    ∀ (names : List String) (out : List StatTuple) (t : StatTuple),
      backend.stats_loop_arrow tbl names = some out → t ∈ out →
      ∃ i entry, tbl.get? i = some entry ∧ backend.stat_column_arrow i entry.2 = some t := by
  intro names
  induction names with
  | nil =>
    intro out t h ht
    simp only [backend.stats_loop_arrow, Option.some.injEq] at h
    subst h
    cases ht
  | cons n rest ih =>
    intro out t h ht
    unfold backend.stats_loop_arrow at h
    cases hf : backend.find_col_idx tbl n with
    | none => rw [hf] at h; cases h
    | some p =>
      rw [hf] at h
      obtain ⟨i, entry⟩ := p
      dsimp only at h
      cases hsc : backend.stat_column_arrow i entry.2 with
      | some t' =>
        rw [hsc] at h
        cases hrest : backend.stats_loop_arrow tbl rest with
        | none => rw [hrest] at h; cases h
        | some ts =>
          rw [hrest] at h
          simp only [Option.some.injEq] at h
          subst h
          rcases List.mem_cons.mp ht with rfl | ht'
          · exact ⟨i, entry, find_col_idx_get tbl n i entry hf, hsc⟩
          · exact ih ts t hrest ht'
      | none =>
        rw [hsc] at h
        cases hrest : backend.stats_loop_arrow tbl rest with
        | none => rw [hrest] at h; cases h
        | some ts =>
          rw [hrest] at h
          simp only [Option.some.injEq] at h
          subst h
          exact ih ts t hrest ht

theorem compute_statistics_arrow_mem {tbl : StatTable} {spec : StatSpec}
    {out : List StatTuple} {t : StatTuple}
    (h : backend._compute_statistics_arrow tbl spec = some out) (ht : t ∈ out) :
    ∃ i entry, tbl.get? i = some entry ∧ backend.stat_column_arrow i entry.2 = some t := by
  unfold backend._compute_statistics_arrow at h
  by_cases h0 : backend.table_num_rows tbl = 0
  · rw [if_pos h0] at h
    simp only [Option.some.injEq] at h
    subst h
    cases ht
  · rw [if_neg h0] at h
    cases spec with
    | statsNone =>
      simp only [backend.resolve_statistics_columns, Option.some.injEq] at h
      subst h
      cases ht
    | statsTrue =>
      exact stats_loop_arrow_mem tbl _ out t h ht
    | statsCols names =>
      cases names with
      | nil =>
        simp only [backend.resolve_statistics_columns, Option.some.injEq] at h
        subst h
        cases ht
      | cons n ns =>
        exact stats_loop_arrow_mem tbl _ out t h ht

theorem stat_column_polars_eq (i : Nat) (col : Column) :
    backend.stat_column_polars i col = backend.stat_column_arrow i col := rfl

theorem stats_loop_polars_eq (tbl : StatTable) :
    ∀ names, backend.stats_loop_polars tbl names = backend.stats_loop_arrow tbl names
  | [] => rfl
  | n :: rest => by
    unfold backend.stats_loop_polars backend.stats_loop_arrow
    rw [stats_loop_polars_eq tbl rest]
    simp only [stat_column_polars_eq]

theorem compute_statistics_polars_eq (tbl : StatTable) (spec : StatSpec) :
    backend._compute_statistics_polars tbl spec
      = backend._compute_statistics_arrow tbl spec := by
  unfold backend._compute_statistics_polars backend._compute_statistics_arrow
  by_cases h0 : backend.table_num_rows tbl = 0
  · rw [if_pos h0, if_pos h0]
  · rw [if_neg h0, if_neg h0]
    cases spec with
    | statsNone => rfl
    | statsTrue => exact stats_loop_polars_eq tbl _
    | statsCols names =>
      cases names with
      | nil => rfl
      | cons n ns => exact stats_loop_polars_eq tbl _

theorem stats_nan_skip_arrow :
    ∀ (tbl : StatTable) (spec : StatSpec) (out : List StatTuple) (i : Nat)
      (name : String) (cells : List (Option FVal)),
      backend._compute_statistics_arrow tbl spec = some out →
      tbl.get? i = some (name, Column.floatCol cells) →
      any_nan cells = true →
      ∀ t ∈ out, t.idx ≠ i := by
  intro tbl spec out i name cells h hget hnan t ht hidx
  obtain ⟨j, entry, hj, hsc⟩ := compute_statistics_arrow_mem h ht
  have hjidx : t.idx = j := stat_column_arrow_idx hsc
  rw [hjidx] at hidx
  subst hidx
  have hent : entry = (name, Column.floatCol cells) := by
    have h2 := hj.symm.trans hget
    exact Option.some.inj h2
  subst hent
  rw [stat_column_arrow_nan_skip hnan] at hsc
  cases hsc

theorem stats_sound_arrow :
    ∀ (tbl : StatTable) (spec : StatSpec) (out : List StatTuple),
      backend._compute_statistics_arrow tbl spec = some out →
      ∀ t ∈ out, ∀ entry : String × Column,
        tbl.get? t.idx = some entry → stat_sound t entry.2 := by
  intro tbl spec out h t ht entry hget
  obtain ⟨j, entry', hj, hsc⟩ := compute_statistics_arrow_mem h ht
  have hjidx : t.idx = j := stat_column_arrow_idx hsc
  rw [hjidx] at hget
  have hent : entry = entry' := by
    have h2 := hget.symm.trans hj
    exact Option.some.inj h2
  subst hent
  exact stat_column_arrow_sound hsc

/-- C4: for every floating-point column for which statistics are requested,
if any value in the column is NaN then no statistics tuple is emitted for
that column — no tuple of the result carries its index — in both the Arrow
and the Polars statistics extractors. -/
theorem c4_nan_statistics_skip :
    (∀ (tbl : StatTable) (spec : StatSpec) (out : List StatTuple) (i : Nat)
       (name : String) (cells : List (Option FVal)),
       backend._compute_statistics_arrow tbl spec = some out →
       tbl.get? i = some (name, Column.floatCol cells) →
       any_nan cells = true →
       ∀ t ∈ out, t.idx ≠ i) ∧
    (∀ (tbl : StatTable) (spec : StatSpec) (out : List StatTuple) (i : Nat)
       (name : String) (cells : List (Option FVal)),
       backend._compute_statistics_polars tbl spec = some out →
       tbl.get? i = some (name, Column.floatCol cells) →
       any_nan cells = true →
       ∀ t ∈ out, t.idx ≠ i) := by
  refine ⟨stats_nan_skip_arrow, ?_⟩
  intro tbl spec out i name cells h hget hnan
  rw [compute_statistics_polars_eq] at h
  exact stats_nan_skip_arrow tbl spec out i name cells h hget hnan

/-- C4 (witness): the NaN-skip theorem at the spec's scenario S6 table
`[("a", [1.0, NaN, 3.0]), ("b", [1, null, 3])]` with all statistics
requested: the only emitted tuple is for column 1, never column 0. -/
theorem c4_nan_statistics_skip_witness :
    ({ idx := 1, type_tag := "int", null_count := 1, num_rows := 3,
       min_int := 1, max_int := 3 } : StatTuple).idx ≠ 0 :=
  c4_nan_statistics_skip.1
    [("a", Column.floatCol [some (FVal.fin 1), some FVal.nan, some (FVal.fin 3)]),
     ("b", Column.intCol [some 1, none, some 3])]
    StatSpec.statsTrue
    [{ idx := 1, type_tag := "int", null_count := 1, num_rows := 3,
       min_int := 1, max_int := 3 }]
    0 "a" [some (FVal.fin 1), some FVal.nan, some (FVal.fin 3)]
    (by decide) (by decide) (by decide)
    { idx := 1, type_tag := "int", null_count := 1, num_rows := 3,
      min_int := 1, max_int := 3 }
    (by decide)

/-- C5: for every column for which a statistics tuple is emitted (by either
the Arrow or the Polars extractor), every non-null value `v` of that column
satisfies `min ≤ v ≤ max` on the scale of its kind (`min_int`/`max_int` for
integer-like columns including dates-as-days and
timestamps-as-microseconds, `min_double`/`max_double` for floating columns,
`min_str`/`max_str` for string columns), and the emitted `null_count`
equals the true number of nulls in the column. -/
theorem c5_statistics_soundness :
    (∀ (tbl : StatTable) (spec : StatSpec) (out : List StatTuple),
       backend._compute_statistics_arrow tbl spec = some out →
       ∀ t ∈ out, ∀ entry : String × Column,
         tbl.get? t.idx = some entry → stat_sound t entry.2) ∧
    (∀ (tbl : StatTable) (spec : StatSpec) (out : List StatTuple),
       backend._compute_statistics_polars tbl spec = some out →
       ∀ t ∈ out, ∀ entry : String × Column,
         tbl.get? t.idx = some entry → stat_sound t entry.2) := by
  refine ⟨stats_sound_arrow, ?_⟩
  intro tbl spec out h
  rw [compute_statistics_polars_eq] at h
  exact stats_sound_arrow tbl spec out h

/-- C5 (witness): the soundness theorem at a concrete table: the tuple
emitted for the integer column `[1, null, 3]` is sound for it. -/
theorem c5_statistics_soundness_witness :
    stat_sound
      { idx := 1, type_tag := "int", null_count := 1, num_rows := 3,
        min_int := 1, max_int := 3 }
      (Column.intCol [some 1, none, some 3]) :=
  c5_statistics_soundness.1
    [("a", Column.floatCol [some (FVal.fin 1), some FVal.nan, some (FVal.fin 3)]),
     ("b", Column.intCol [some 1, none, some 3])]
    StatSpec.statsTrue
    [{ idx := 1, type_tag := "int", null_count := 1, num_rows := 3,
       min_int := 1, max_int := 3 }]
    (by decide)
    { idx := 1, type_tag := "int", null_count := 1, num_rows := 3,
      min_int := 1, max_int := 3 }
    (by decide)
    ("b", Column.intCol [some 1, none, some 3])
    (by decide)
